import Mathlib

set_option maxRecDepth 2000

/-!
# Verification of the invoice/bank-statement reconciliation core

A shallow embedding, in Lean 4, of the core logic of the repository:

* `src/utils.py` — the locale-aware amount parser (`parse_amount`, regex
  `AMOUNT_RE`), modelled character-by-character including the Python regex
  engine's leftmost-match, ordered-alternation and greedy-quantifier
  behaviour for this specific pattern.
* `src/bank_matching.py` — statement loading (CSV separator probing, PDF
  table/text extraction post-processing, column detection, normalization)
  and the invoice/transaction matcher (amount gate, date gate, score,
  best-candidate scan).
* `src/invoice_extraction.py` / `src/llm_extraction.py` — the optional
  LLM enrichment overlay over heuristic extraction.

Modelling conventions:

* Python floats are modelled as `Rat`.  All amounts computed by the code
  are finite decimals, so rational arithmetic is the faithful idealization.
* Python `datetime.date`/`datetime` values are modelled as `Int` day
  ordinals: comparison and `(a - b).days` become integer comparison and
  subtraction.
* Fallible operations are modelled with `Option`/`Except`.
* External collaborators (the `dateutil` parser, `rapidfuzz` similarity,
  Python `str()` formatting of floats/datetimes, `unicodedata` accent
  stripping) are not part of the repository; they are kept abstract as
  fields of the `Ext` bundle, universally quantified in every theorem.
* `pandas`/`pdfplumber` are external; the raw tables / page contents they
  produce are the inputs of the model (`DF`, `PdfPage`, `Source`), and the
  DataFrame operations the code performs on them (column selection,
  `apply`, `dropna`, `concat`) are modelled directly on lists.
-/

/-- A Python value appearing in a raw table cell: `NaN`, `None`, a number,
a string, or a `datetime`.  `datetime` values are day ordinals. -/
inductive Cell where
  | nan
  | pynone
  | num (q : Rat)
  | str (s : String)
  | dt (d : Int)
deriving DecidableEq, Repr

/-- The bundle of external collaborators used by the code but not defined in
this repository.  Each field is an abstract function; theorems quantify over
the whole bundle, so they hold for every behaviour of these collaborators.

* `dateparse` — `dateutil.parser.parse(s, dayfirst=True, fuzzy=True)`
  followed by nothing or `.date()`: the day ordinal of the parsed date,
  `none` when parsing raises (this is `utils.parse_date`).
* `dateparseDefault` — `dateutil.parser.parse(s).date()` with default
  options, as called in `find_best_match` (note: NOT day-first).
* `ratio` — `rapidfuzz.fuzz.partial_ratio`, a similarity score.
* `numStr` — Python `str()` of a float.
* `datetimeStr` — Python `str()` of a datetime.
* `stripAccents` — `_strip_accents` (NFD normalization via `unicodedata`,
  dropping combining marks). -/
structure Collab where
  dateparse : String → Option Int
  dateparseDefault : String → Option Int
  ratio : String → String → Rat
  numStr : Rat → String
  datetimeStr : Int → String
  stripAccents : String → String

/-! ## Character-level helpers (Python string/regex primitives)

All string surgery is done on `List Char` so that every definition reduces
by `decide`/`rfl` on concrete inputs. -/

/-- The whitespace class of Python: `\s` of `re` on `str` and the default
class of `str.strip`/`str.isspace` (ASCII whitespace, the C1 controls,
NEL, and the Unicode space separators). -/
def pySpace (c : Char) : Bool :=
  c = ' ' ∨ c = '\t' ∨ c = '\n' ∨ c = '\r' ∨ c = '\x0b' ∨ c = '\x0c' ∨
  c = '\x1c' ∨ c = '\x1d' ∨ c = '\x1e' ∨ c = '\x1f' ∨ c = '\x85' ∨
  c = ' ' ∨ c = ' ' ∨ (' ' ≤ c ∧ c ≤ ' ') ∨
  c = ' ' ∨ c = ' ' ∨ c = ' ' ∨ c = ' ' ∨ c = '　'

/-- Replace every occurrence of character `a` by `b` (`str.replace` for
single-character patterns). -/
def replaceChar (a b : Char) (l : List Char) : List Char :=
  l.map (fun c => if c = a then b else c)

/-- Python `str.strip()`: drop leading and trailing whitespace. -/
def pyStrip (l : List Char) : List Char :=
  ((l.dropWhile pySpace).reverse.dropWhile pySpace).reverse

/-- Numeric value of a list of decimal digit characters. -/
def natOfDigits (ds : List Char) : Nat :=
  ds.foldl (fun n c => 10 * n + (c.toNat - '0'.toNat)) 0

/-! ## `utils.parse_amount` (src/src/utils.py)

```python
AMOUNT_RE = re.compile(r"([+-]?)\s*(\d{1,3}(?:[\.,]\d{3})*|\d+)([\.,](\d{2}))?")

def parse_amount(text):
    t = text.replace(" ", " ").replace("\xa0", " ").strip()
    t = re.sub(r"(?<=\d)\s+(?=\d)", "", t)
    m = AMOUNT_RE.search(t)
    if not m: return None
    sign, intpart, _, dec = m.groups()
    intpart = intpart.replace(".", "").replace(",", "")
    value = float(intpart)
    if dec is not None: value += float(dec) / 100.0
    if sign == "-": value = -value
    return value
```
-/

/-- Does `l` start with a nonempty whitespace run followed by a digit?
(The lookbehind/lookahead test of `(?<=\d)\s+(?=\d)` at a digit.) -/
def spaceThenDigit (l : List Char) : Bool :=
  (l.takeWhile pySpace).length ≠ 0 &&
    (match l.dropWhile pySpace with
     | d :: _ => d.isDigit
     | [] => false)

/-- Fuel-driven worker for `collapseDigitSpaces` (fuel = list length keeps
the recursion structural so that concrete inputs reduce in the kernel). -/
def collapseDigitSpacesFuel : Nat → List Char → List Char
  | 0, l => l
  | _ + 1, [] => []
  | fuel + 1, c :: rest =>
    if c.isDigit && spaceThenDigit rest then
      c :: collapseDigitSpacesFuel fuel (rest.dropWhile pySpace)
    else
      c :: collapseDigitSpacesFuel fuel rest

/-- `re.sub(r"(?<=\d)\s+(?=\d)", "", t)`: delete every maximal whitespace
run whose immediate neighbours on both sides are digits. -/
def collapseDigitSpaces (l : List Char) : List Char :=
  collapseDigitSpacesFuel l.length l

/-- The `(?:[\.,]\d{3})*` part of `AMOUNT_RE`: greedily consume
separator-plus-three-digit groups, returning the collected digits and the
remainder.  (The separators themselves are dropped, mirroring
`intpart.replace(".", "").replace(",", "")`.) -/
def amountGroups : List Char → List Char × List Char
  | s :: d1 :: d2 :: d3 :: rest =>
    if (s = '.' ∨ s = ',') ∧ d1.isDigit ∧ d2.isDigit ∧ d3.isDigit then
      let (ds, r) := amountGroups rest
      (d1 :: d2 :: d3 :: ds, r)
    else
      ([], s :: d1 :: d2 :: d3 :: rest)
  | l => ([], l)

/-- One attempt of `AMOUNT_RE` anchored at the head of `cs`.  Returns
`(negative sign present, integer-part digits, optional 2-digit fraction)`.

Faithful to the Python engine on this pattern: `[+-]?` consumes an explicit
sign; `\s*` skips whitespace (shorter matches can never help since a digit
must follow); the first alternative `\d{1,3}(?:[\.,]\d{3})*` greedily takes
at most three leading digits and then separator-triple groups — because the
rest of the pattern is optional the engine never backtracks into the `\d+`
alternative, which is therefore dead code; `([\.,](\d{2}))?` takes a
separator plus exactly two digits when available. -/
def matchAmountAt (cs : List Char) : Option (Bool × List Char × Option (Char × Char)) :=
  let signRest : Bool × List Char :=
    match cs with
    | '+' :: r => (false, r)
    | '-' :: r => (true, r)
    | _ => (false, cs)
  let cs2 := signRest.2.dropWhile pySpace
  match cs2 with
  | c :: _ =>
    if c.isDigit then
      let int1 := (cs2.takeWhile Char.isDigit).take 3
      let rest1 := cs2.drop int1.length
      let (grp, rest2) := amountGroups rest1
      let dec : Option (Char × Char) :=
        match rest2 with
        | s :: a :: b :: _ =>
          if (s = '.' ∨ s = ',') ∧ a.isDigit ∧ b.isDigit then some (a, b) else none
        | _ => none
      some (signRest.1, int1 ++ grp, dec)
    else none
  | [] => none

/-- `AMOUNT_RE.search`: try each start position left to right. -/
def amountSearch : List Char → Option (Bool × List Char × Option (Char × Char))
  | [] => none
  | c :: rest =>
    match matchAmountAt (c :: rest) with
    | some r => some r
    | none => amountSearch rest

/-- `utils.parse_amount`.  `float(intpart)`, `value += float(dec) / 100.0`
and the final sign flip combine into the exact rational
`±(100·intpart + dec) / 100` (Python floats only approximate this ideal
value; the model computes it exactly, via `mkRat` so that concrete inputs
reduce in the kernel). -/
def parse_amount (text : String) : Option Rat :=
  let t := pyStrip (replaceChar ' ' ' ' (replaceChar ' ' ' ' text.data))
  let t := collapseDigitSpaces t
  match amountSearch t with
  | none => none
  | some (neg, ints, dec) =>
    let v : Rat := match dec with
      | some (a, b) => mkRat (100 * natOfDigits ints + natOfDigits [a, b]) 100
      | none => mkRat (natOfDigits ints) 1
    some (if neg then -v else v)

example : parse_amount "1,234.56" = some (mkRat 123456 100) := by decide
example : parse_amount "1.234,56" = some (mkRat 123456 100) := by decide
example : parse_amount "1 234,56" = some (mkRat 123 1) := by decide
example : parse_amount "100" = some (mkRat 100 1) := by decide
example : parse_amount "-50.25" = some (-(mkRat 5025 100)) := by decide
example : parse_amount "Not a number" = none := by decide
example : parse_amount "12.34" = some (mkRat 1234 100) := by decide
example : parse_amount "0,5" = some (mkRat 0 1) := by decide

/-! ## The matcher (src/src/bank_matching.py, lines 304–419)

A transaction row of the normalized statement table: after the `dropna`
invariant (§ C6) `date` and `amount` are present, `description` is a
string; `row["date"].date()` is the `Int` day ordinal. -/

/-- One row of the normalized bank-statement table as consumed by
`find_best_match` (`row["date"].date()`, `row["amount"]`,
`str(row["description"])`). -/
structure Txn where
  date : Int
  description : String
  amount : Rat
deriving DecidableEq, Repr

/-- An invoice record as produced by extraction (`invoice.get(...)` on the
Python dict: absent keys are `none`). -/
structure Invoice where
  filename : Option String := none
  invoice_number : Option String := none
  invoice_date : Option String := none
  total_amount : Option Rat := none
deriving DecidableEq, Repr

/-- The dict returned by `find_best_match` on success. -/
structure MatchResult where
  match_score : Rat
  bank_date : Int
  bank_amount : Rat
  bank_description : String
deriving DecidableEq, Repr

/-- One row of the DataFrame returned by `match_invoices_to_bank`; the four
bank/score fields are the keys added by `row.update(match_result)`, absent
(`none`) when the invoice is unmatched. -/
structure MatchRow where
  filename : Option String
  invoice_number : Option String
  invoice_date : Option String
  total_amount : Option Rat
  matched : Bool
  match_score : Option Rat
  bank_date : Option Int
  bank_amount : Option Rat
  bank_description : Option String
deriving DecidableEq, Repr

/-- `_check_amount_match`: fails when either value is `None`, otherwise
compares `abs(abs(transaction_amount) - abs(invoice_total))` with the
tolerance. -/
def _check_amount_match (invoice_total transaction_amount : Option Rat)
    (tolerance : Rat) : Bool :=
  match invoice_total, transaction_amount with
  | some t, some a => |(|a| - |t|)| ≤ tolerance
  | _, _ => false

/-- `_check_date_match`: passes when either date is `None` ("don't penalize
missing dates"), otherwise requires the transaction on or after the invoice
date and within `max_days_delta` days. -/
def _check_date_match (invoice_date transaction_date : Option Int)
    (max_days_delta : Int) : Bool :=
  match invoice_date, transaction_date with
  | some i, some t => i ≤ t ∧ t - i ≤ max_days_delta
  | _, _ => true

/-- `_calculate_match_score`: fuzzy similarity between the invoice number
and the transaction description (in both argument orders), 0 when the
invoice number is falsy (``None`` or empty), plus 5 on an exact amount
match. -/
def _calculate_match_score (ext : Collab) (invoice_number : Option String)
    (transaction_description : String) (amount_matches_exactly : Bool) : Rat :=
  let score : Rat :=
    match invoice_number with
    | some s =>
      if s ≠ "" then
        max (ext.ratio s.toLower transaction_description.toLower)
          (ext.ratio transaction_description.toLower s.toLower)
      else 0
    | none => 0
  if amount_matches_exactly then score + 5 else score

/-- The `1e-9` epsilon of the exact-amount bonus in `find_best_match`. -/
def amountEps : Rat := mkRat 1 1000000000

/-- The two gates of `find_best_match`, in loop order: amount gate then
date gate (`continue` on failure of either). -/
def fbmGate (inv_total : Option Rat) (inv_date : Option Int)
    (amount_tolerance : Rat) (max_days_delta : Int) (t : Txn) : Bool :=
  _check_amount_match inv_total (some t.amount) amount_tolerance &&
    _check_date_match inv_date (some t.date) max_days_delta

/-- The score `find_best_match` computes for a gate-passing candidate:
`amount_matches_exactly = abs(abs(row["amount"]) - abs(inv_total or 0)) <= 1e-9`
(Python `or`: `None` and `0.0` both give 0), then `_calculate_match_score`. -/
def fbmScore (ext : Collab) (inv_num : Option String) (inv_total : Option Rat)
    (t : Txn) : Rat :=
  _calculate_match_score ext inv_num t.description
    (|(|t.amount| - |inv_total.getD 0|)| ≤ amountEps)

/-- The scan of `find_best_match`: `best_score = -1.0`, `best_row = None`;
for each row, skip unless both gates pass, then replace the best candidate
exactly when the score is strictly greater. -/
def fbmLoop (gate : Txn → Bool) (score : Txn → Rat) :
    Rat × Option Txn → List Txn → Rat × Option Txn
  | acc, [] => acc
  | (b, r), t :: ts =>
    if gate t then
      if b < score t then fbmLoop gate score (score t, some t) ts
      else fbmLoop gate score (b, r) ts
    else fbmLoop gate score (b, r) ts

/-- The invoice date used by `find_best_match`:
`dateparser.parse(inv_date_s).date()` guarded by Python truthiness of the
string and a `try/except`. -/
def fbmInvDate (ext : Collab) (inv : Invoice) : Option Int :=
  match inv.invoice_date with
  | some s => if s ≠ "" then ext.dateparseDefault s else none
  | none => none

/-- `find_best_match`. -/
def find_best_match (ext : Collab) (inv : Invoice) (bank : List Txn)
    (amount_tolerance : Rat) (max_days_delta : Int) : Option MatchResult :=
  let gate := fbmGate inv.total_amount (fbmInvDate ext inv) amount_tolerance max_days_delta
  let score := fbmScore ext inv.invoice_number inv.total_amount
  let br := fbmLoop gate score (-1, none) bank
  br.2.map fun t =>
    { match_score := br.1
      bank_date := t.date
      bank_amount := t.amount
      bank_description := t.description }

/-- `match_invoices_to_bank` (defaults `amount_tolerance=0.02`,
`max_days_delta=90`). -/
def match_invoices_to_bank (ext : Collab) (invoices : List Invoice)
    (bank : List Txn) (amount_tolerance : Rat := mkRat 2 100)
    (max_days_delta : Int := 90) : List MatchRow :=
  invoices.map fun inv =>
    match find_best_match ext inv bank amount_tolerance max_days_delta with
    | none =>
      { filename := inv.filename
        invoice_number := inv.invoice_number
        invoice_date := inv.invoice_date
        total_amount := inv.total_amount
        matched := false
        match_score := none
        bank_date := none
        bank_amount := none
        bank_description := none }
    | some m =>
      { filename := inv.filename
        invoice_number := inv.invoice_number
        invoice_date := inv.invoice_date
        total_amount := inv.total_amount
        matched := true
        match_score := some m.match_score
        bank_date := some m.bank_date
        bank_amount := some m.bank_amount
        bank_description := some m.bank_description }

/-- C2. The amount gate passes iff both values are present and the absolute
values differ by at most the tolerance; it is symmetric in the sign of
either value (an invoice total of 120.00 matches a transaction amount of
−120.00 but not −125.00 at tolerance 0.02), and it fails whenever either
value is absent. -/
theorem check_amount_match_spec :
    (∀ (it ta : Option Rat) (tol : Rat),
      _check_amount_match it ta tol = true ↔
        ∃ t a, it = some t ∧ ta = some a ∧ |(|a| - |t|)| ≤ tol) ∧
    (∀ (t a tol : Rat),
      _check_amount_match (some (-t)) (some a) tol = _check_amount_match (some t) (some a) tol ∧
      _check_amount_match (some t) (some (-a)) tol = _check_amount_match (some t) (some a) tol) ∧
    _check_amount_match (some 120) (some (-120)) (mkRat 2 100) = true ∧
    _check_amount_match (some 120) (some (-125)) (mkRat 2 100) = false ∧
    (∀ (ta : Option Rat) (tol : Rat), _check_amount_match none ta tol = false) ∧
    (∀ (it : Option Rat) (tol : Rat), _check_amount_match it none tol = false) := by
  refine ⟨?_, ?_, ?_, ?_, ?_, ?_⟩
  · intro it ta tol
    cases it with
    | none => simp [_check_amount_match]
    | some t =>
      cases ta with
      | none => simp [_check_amount_match]
      | some a => simp [_check_amount_match, decide_eq_true_iff]
  · intro t a tol
    constructor <;> simp [_check_amount_match, abs_neg]
  · with_unfolding_all decide
  · with_unfolding_all decide
  · intro ta tol; cases ta <;> rfl
  · intro it tol; cases it <;> rfl

/-- C3. The date gate passes iff either date is absent, or the transaction
date is on/after the invoice date and at most `max_days_delta` days after
it; missing dates on either side are treated as satisfied. -/
theorem check_date_match_spec :
    (∀ (di dt : Option Int) (maxd : Int),
      _check_date_match di dt maxd = true ↔
        (di = none ∨ dt = none ∨
          ∃ i t, di = some i ∧ dt = some t ∧ i ≤ t ∧ t - i ≤ maxd)) ∧
    (∀ (i t maxd : Int), t < i → _check_date_match (some i) (some t) maxd = false) ∧
    (∀ (i t maxd : Int), maxd < t - i → _check_date_match (some i) (some t) maxd = false) ∧
    (∀ (dt : Option Int) (maxd : Int), _check_date_match none dt maxd = true) ∧
    (∀ (di : Option Int) (maxd : Int), _check_date_match di none maxd = true) := by
  refine ⟨?_, ?_, ?_, ?_, ?_⟩
  · intro di dt maxd
    cases di with
    | none => simp [_check_date_match]
    | some i =>
      cases dt with
      | none => simp [_check_date_match]
      | some t => simp [_check_date_match, decide_eq_true_iff]
  · intro i t maxd h
    simp only [_check_date_match]
    simp [not_le.mpr h]
  · intro i t maxd h
    simp only [_check_date_match]
    simp [not_le.mpr h]
  · intro dt maxd; cases dt <;> rfl
  · intro di maxd; cases di <;> rfl

/-! ## Characterization of the best-candidate scan (for C4/C5)

`fbmLoop` on the gate-filtered list is a running strict maximum; its result
is the first gate-passing transaction attaining the maximal score. -/

/-- The scan restricted to candidates that already passed the gates. -/
def maxStep (score : Txn → Rat) : Rat × Option Txn → List Txn → Rat × Option Txn
  | acc, [] => acc
  | (b, r), t :: ts =>
    if b < score t then maxStep score (score t, some t) ts
    else maxStep score (b, r) ts

/-- Running maximum of the scores of `g` starting from `b`. -/
def listMax (score : Txn → Rat) (b : Rat) (g : List Txn) : Rat :=
  g.foldl (fun m t => max m (score t)) b

theorem fbmLoop_eq_maxStep (gate : Txn → Bool) (score : Txn → Rat) :
    ∀ (l : List Txn) (b : Rat) (r : Option Txn),
      fbmLoop gate score (b, r) l = maxStep score (b, r) (l.filter gate) := by
  intro l
  induction l with
  | nil => intro b r; rfl
  | cons t ts ih =>
    intro b r
    by_cases hg : gate t = true
    · by_cases hs : b < score t
      · simp [fbmLoop, hg, hs, List.filter_cons, maxStep, ih]
      · simp [fbmLoop, hg, hs, List.filter_cons, maxStep, ih]
    · simp [fbmLoop, hg, List.filter_cons, ih]

theorem le_listMax (score : Txn → Rat) :
    ∀ (g : List Txn) (b : Rat), b ≤ listMax score b g := by
  intro g
  induction g with
  | nil => intro b; exact le_refl b
  | cons t ts ih =>
    intro b
    exact le_trans (le_max_left b (score t)) (ih (max b (score t)))

theorem mem_le_listMax (score : Txn → Rat) :
    ∀ (g : List Txn) (b : Rat) (t : Txn), t ∈ g → score t ≤ listMax score b g := by
  intro g
  induction g with
  | nil => intro b t ht; cases ht
  | cons u ts ih =>
    intro b t ht
    rcases List.mem_cons.1 ht with h | h
    · subst h
      exact le_trans (le_max_right b (score t)) (le_listMax score ts (max b (score t)))
    · exact ih (max b (score u)) t h

theorem listMax_attained (score : Txn → Rat) :
    ∀ (g : List Txn) (b : Rat),
      listMax score b g = b ∨ ∃ t ∈ g, score t = listMax score b g := by
  intro g
  induction g with
  | nil => intro b; exact Or.inl rfl
  | cons t ts ih =>
    intro b
    rcases ih (max b (score t)) with h | ⟨u, hu, hs⟩
    · rcases le_total (score t) b with hle | hle
      · left
        show listMax score (max b (score t)) ts = b
        rw [max_eq_left hle] at h ⊢
        exact h
      · right
        refine ⟨t, List.mem_cons_self t ts, ?_⟩
        show score t = listMax score (max b (score t)) ts
        rw [max_eq_right hle] at h ⊢
        exact h.symm
    · exact Or.inr ⟨u, List.mem_cons_of_mem t hu, hs⟩

theorem maxStep_eq (score : Txn → Rat) :
    ∀ (g : List Txn) (b : Rat) (r : Option Txn),
      maxStep score (b, r) g =
        (listMax score b g,
          if b < listMax score b g then
            g.find? (fun t => decide (score t = listMax score b g))
          else r) := by
  intro g
  induction g with
  | nil =>
    intro b r
    simp [maxStep, listMax, lt_irrefl]
  | cons t ts ih =>
    intro b r
    have hcons : listMax score b (t :: ts) = listMax score (max b (score t)) ts := rfl
    by_cases hb : b < score t
    · have hmax : max b (score t) = score t := max_eq_right hb.le
      have hM : listMax score b (t :: ts) = listMax score (score t) ts := by
        rw [hcons, hmax]
      have hbM : b < listMax score b (t :: ts) := by
        rw [hM]
        exact lt_of_lt_of_le hb (le_listMax score ts (score t))
      rw [show maxStep score (b, r) (t :: ts) = maxStep score (score t, some t) ts from by
            simp [maxStep, hb],
        ih (score t) (some t)]
      by_cases hm : score t = listMax score (score t) ts
      · have hlt : ¬ score t < listMax score (score t) ts := by rw [← hm]; exact lt_irrefl _
        rw [if_neg hlt, if_pos hbM, hM]
        rw [List.find?_cons]
        have : decide (score t = listMax score (score t) ts) = true := decide_eq_true hm
        simp [this]
      · have hlt : score t < listMax score (score t) ts :=
          lt_of_le_of_ne (le_listMax score ts (score t)) hm
        rw [if_pos hlt, if_pos hbM, hM]
        rw [List.find?_cons]
        have : decide (score t = listMax score (score t) ts) = false :=
          decide_eq_false hm
        simp [this]
    · have hmax : max b (score t) = b := max_eq_left (not_lt.1 hb)
      have hM : listMax score b (t :: ts) = listMax score b ts := by
        rw [hcons, hmax]
      rw [show maxStep score (b, r) (t :: ts) = maxStep score (b, r) ts from by
            simp [maxStep, hb],
        ih b r, hM]
      by_cases hbM : b < listMax score b ts
      · have hne : score t ≠ listMax score b ts := by
          intro he
          exact hb (lt_of_lt_of_le hbM (le_of_eq he.symm))
        rw [if_pos hbM, if_pos hbM]
        rw [List.find?_cons]
        have : decide (score t = listMax score b ts) = false := decide_eq_false hne
        simp [this]
      · rw [if_neg hbM, if_neg hbM]

theorem calculate_match_score_nonneg (ext : Collab)
    (hnn : ∀ a b, 0 ≤ ext.ratio a b) (n : Option String) (d : String) (e : Bool) :
    0 ≤ _calculate_match_score ext n d e := by
  have hbase : (0 : Rat) ≤ (match n with
      | some s =>
        if s ≠ "" then
          max (ext.ratio s.toLower d.toLower) (ext.ratio d.toLower s.toLower)
        else 0
      | none => 0) := by
    cases n with
    | none => exact le_refl 0
    | some s =>
      by_cases hs : s = ""
      · simp [hs]
      · simpa [hs] using le_trans (hnn s.toLower d.toLower) (le_max_left _ _)
  unfold _calculate_match_score
  cases e with
  | false => simpa using hbase
  | true => simpa using add_nonneg hbase (by norm_num)

theorem fbmScore_nonneg (ext : Collab) (hnn : ∀ a b, 0 ≤ ext.ratio a b)
    (n : Option String) (tot : Option Rat) (t : Txn) :
    0 ≤ fbmScore ext n tot t :=
  calculate_match_score_nonneg ext hnn n t.description _

/-- The gate-passing candidates of `find_best_match`, in table order. -/
def fbmPassers (ext : Collab) (inv : Invoice) (bank : List Txn)
    (tol : Rat) (maxd : Int) : List Txn :=
  bank.filter (fbmGate inv.total_amount (fbmInvDate ext inv) tol maxd)

/-- The final value of `best_score` in `find_best_match`. -/
def fbmBestScore (ext : Collab) (inv : Invoice) (bank : List Txn)
    (tol : Rat) (maxd : Int) : Rat :=
  listMax (fbmScore ext inv.invoice_number inv.total_amount) (-1)
    (fbmPassers ext inv bank tol maxd)

theorem find_best_match_eq_select (ext : Collab) (inv : Invoice) (bank : List Txn)
    (tol : Rat) (maxd : Int) :
    find_best_match ext inv bank tol maxd =
      (if (-1 : Rat) < fbmBestScore ext inv bank tol maxd then
        (fbmPassers ext inv bank tol maxd).find? (fun t =>
          decide (fbmScore ext inv.invoice_number inv.total_amount t =
            fbmBestScore ext inv bank tol maxd))
      else none).map
        (fun t =>
          { match_score := fbmBestScore ext inv bank tol maxd
            bank_date := t.date
            bank_amount := t.amount
            bank_description := t.description }) := by
  unfold find_best_match fbmBestScore fbmPassers
  simp only [fbmLoop_eq_maxStep, maxStep_eq]

theorem find_best_match_isSome_iff (ext : Collab) (inv : Invoice) (bank : List Txn)
    (tol : Rat) (maxd : Int) (hnn : ∀ a b, 0 ≤ ext.ratio a b) :
    (find_best_match ext inv bank tol maxd).isSome = true ↔
      ∃ t ∈ bank, fbmGate inv.total_amount (fbmInvDate ext inv) tol maxd t = true := by
  rw [find_best_match_eq_select]
  by_cases h : (-1 : Rat) < fbmBestScore ext inv bank tol maxd
  · rw [if_pos h]
    rcases listMax_attained (fbmScore ext inv.invoice_number inv.total_amount)
        (fbmPassers ext inv bank tol maxd) (-1) with hb | ⟨t, ht, hs⟩
    · exact absurd (hb ▸ h) (lt_irrefl _)
    · constructor
      · intro _
        refine ⟨t, (List.mem_filter.1 ht).1, (List.mem_filter.1 ht).2⟩
      · intro _
        simp only [Option.isSome_map', List.find?_isSome]
        exact ⟨t, ht, decide_eq_true hs⟩
  · rw [if_neg h]
    simp only [Option.map_none', Option.isSome_none]
    constructor
    · intro hfalse; exact (Bool.false_ne_true hfalse).elim
    · rintro ⟨t, htb, htg⟩
      exfalso
      apply h
      have htp : t ∈ fbmPassers ext inv bank tol maxd := List.mem_filter.2 ⟨htb, htg⟩
      calc (-1 : Rat) < 0 := by norm_num
        _ ≤ fbmScore ext inv.invoice_number inv.total_amount t :=
          fbmScore_nonneg ext hnn inv.invoice_number inv.total_amount t
        _ ≤ fbmBestScore ext inv bank tol maxd := mem_le_listMax _ _ _ _ htp

/-- C4. `find_best_match` scans the table in order and replaces the best
candidate only on a strictly greater score, so the result is the earliest
gate-passing transaction whose score attains the maximum (`List.find?`
returns the first element satisfying its predicate).  The similarity
collaborator is only assumed nonnegative, as `rapidfuzz` scores are. -/
theorem find_best_match_earliest_max (ext : Collab) (inv : Invoice)
    (bank : List Txn) (tol : Rat) (maxd : Int)
    (hnn : ∀ a b, 0 ≤ ext.ratio a b)
    (hne : fbmPassers ext inv bank tol maxd ≠ []) :
    find_best_match ext inv bank tol maxd =
      ((fbmPassers ext inv bank tol maxd).find? (fun t =>
          decide (fbmScore ext inv.invoice_number inv.total_amount t =
            fbmBestScore ext inv bank tol maxd))).map
        (fun t =>
          { match_score := fbmBestScore ext inv bank tol maxd
            bank_date := t.date
            bank_amount := t.amount
            bank_description := t.description }) := by
  rw [find_best_match_eq_select]
  have hpos : (-1 : Rat) < fbmBestScore ext inv bank tol maxd := by
    rcases List.exists_mem_of_ne_nil _ hne with ⟨t, ht⟩
    calc (-1 : Rat) < 0 := by norm_num
      _ ≤ fbmScore ext inv.invoice_number inv.total_amount t :=
        fbmScore_nonneg ext hnn inv.invoice_number inv.total_amount t
      _ ≤ fbmBestScore ext inv bank tol maxd := mem_le_listMax _ _ _ _ ht
  rw [if_pos hpos]

/-- A trivial instantiation of the external-collaborator bundle, used to
evaluate the model on concrete inputs. -/
def collab0 : Collab :=
  { dateparse := fun _ => none
    dateparseDefault := fun _ => none
    ratio := fun _ _ => 0
    numStr := fun _ => ""
    datetimeStr := fun _ => ""
    stripAccents := fun s => s }

/-- Concrete invoice for the matcher witnesses. -/
def wInv : Invoice := { total_amount := some 2 }

/-- Concrete transaction table for the matcher witnesses: two candidates
that both pass the gates with equal (maximal) score. -/
def wBank : List Txn := [⟨0, "a", 2⟩, ⟨0, "b", 2⟩]

theorem find_best_match_earliest_max_witness :
    find_best_match collab0 wInv wBank 1 5 =
      ((fbmPassers collab0 wInv wBank 1 5).find? (fun t =>
          decide (fbmScore collab0 wInv.invoice_number wInv.total_amount t =
            fbmBestScore collab0 wInv wBank 1 5))).map
        (fun t =>
          { match_score := fbmBestScore collab0 wInv wBank 1 5
            bank_date := t.date
            bank_amount := t.amount
            bank_description := t.description }) :=
  find_best_match_earliest_max collab0 wInv wBank 1 5
    (fun _ _ => le_refl 0) (by with_unfolding_all decide)

example : find_best_match collab0 wInv wBank 1 5 =
    some { match_score := 5, bank_date := 0, bank_amount := 2, bank_description := "a" } := by
  with_unfolding_all decide

/-- C5. `match_invoices_to_bank` emits exactly one row per invoice (echoing
its identity fields); the row is matched iff some transaction passes both
gates (in particular a best score of 0 still matches, since any
gate-passing candidate beats the initial `best_score = -1`); an unmatched
row carries no score/bank fields; a matched row carries exactly one
transaction's date, amount and description together with its score. -/
theorem match_invoices_to_bank_rows (ext : Collab) (invoices : List Invoice)
    (bank : List Txn) (tol : Rat) (maxd : Int) (i : Nat)
    (hnn : ∀ a b, 0 ≤ ext.ratio a b) (hi : i < invoices.length) :
    (match_invoices_to_bank ext invoices bank tol maxd).length = invoices.length ∧
    ∀ hi2 : i < (match_invoices_to_bank ext invoices bank tol maxd).length,
      (((match_invoices_to_bank ext invoices bank tol maxd).get ⟨i, hi2⟩).filename =
          (invoices.get ⟨i, hi⟩).filename ∧
        ((match_invoices_to_bank ext invoices bank tol maxd).get ⟨i, hi2⟩).invoice_number =
          (invoices.get ⟨i, hi⟩).invoice_number ∧
        ((match_invoices_to_bank ext invoices bank tol maxd).get ⟨i, hi2⟩).invoice_date =
          (invoices.get ⟨i, hi⟩).invoice_date ∧
        ((match_invoices_to_bank ext invoices bank tol maxd).get ⟨i, hi2⟩).total_amount =
          (invoices.get ⟨i, hi⟩).total_amount) ∧
      (((match_invoices_to_bank ext invoices bank tol maxd).get ⟨i, hi2⟩).matched = true ↔
        ∃ t ∈ bank,
          fbmGate (invoices.get ⟨i, hi⟩).total_amount
            (fbmInvDate ext (invoices.get ⟨i, hi⟩)) tol maxd t = true) ∧
      (((match_invoices_to_bank ext invoices bank tol maxd).get ⟨i, hi2⟩).matched = false →
        ((match_invoices_to_bank ext invoices bank tol maxd).get ⟨i, hi2⟩).match_score = none ∧
        ((match_invoices_to_bank ext invoices bank tol maxd).get ⟨i, hi2⟩).bank_date = none ∧
        ((match_invoices_to_bank ext invoices bank tol maxd).get ⟨i, hi2⟩).bank_amount = none ∧
        ((match_invoices_to_bank ext invoices bank tol maxd).get ⟨i, hi2⟩).bank_description = none) ∧
      (((match_invoices_to_bank ext invoices bank tol maxd).get ⟨i, hi2⟩).matched = true →
        ∃ t ∈ bank,
          fbmGate (invoices.get ⟨i, hi⟩).total_amount
            (fbmInvDate ext (invoices.get ⟨i, hi⟩)) tol maxd t = true ∧
          ((match_invoices_to_bank ext invoices bank tol maxd).get ⟨i, hi2⟩).bank_date = some t.date ∧
          ((match_invoices_to_bank ext invoices bank tol maxd).get ⟨i, hi2⟩).bank_amount = some t.amount ∧
          ((match_invoices_to_bank ext invoices bank tol maxd).get ⟨i, hi2⟩).bank_description = some t.description ∧
          ((match_invoices_to_bank ext invoices bank tol maxd).get ⟨i, hi2⟩).match_score =
            some (fbmScore ext (invoices.get ⟨i, hi⟩).invoice_number
              (invoices.get ⟨i, hi⟩).total_amount t)) := by
  constructor
  · simp [match_invoices_to_bank]
  · intro hi2
    have hrow : (match_invoices_to_bank ext invoices bank tol maxd).get ⟨i, hi2⟩ =
        (match find_best_match ext (invoices.get ⟨i, hi⟩) bank tol maxd with
          | none =>
            { filename := (invoices.get ⟨i, hi⟩).filename
              invoice_number := (invoices.get ⟨i, hi⟩).invoice_number
              invoice_date := (invoices.get ⟨i, hi⟩).invoice_date
              total_amount := (invoices.get ⟨i, hi⟩).total_amount
              matched := false
              match_score := none
              bank_date := none
              bank_amount := none
              bank_description := none }
          | some m =>
            { filename := (invoices.get ⟨i, hi⟩).filename
              invoice_number := (invoices.get ⟨i, hi⟩).invoice_number
              invoice_date := (invoices.get ⟨i, hi⟩).invoice_date
              total_amount := (invoices.get ⟨i, hi⟩).total_amount
              matched := true
              match_score := some m.match_score
              bank_date := some m.bank_date
              bank_amount := some m.bank_amount
              bank_description := some m.bank_description }) := by
      simp [match_invoices_to_bank, List.get_eq_getElem, List.getElem_map]
    rcases hfb : find_best_match ext (invoices.get ⟨i, hi⟩) bank tol maxd with _ | m
    · rw [hfb] at hrow
      have hnomatch : ¬ ∃ t ∈ bank,
          fbmGate (invoices.get ⟨i, hi⟩).total_amount
            (fbmInvDate ext (invoices.get ⟨i, hi⟩)) tol maxd t = true := by
        intro hex
        have := (find_best_match_isSome_iff ext (invoices.get ⟨i, hi⟩) bank tol maxd hnn).2 hex
        rw [hfb] at this
        exact (Bool.false_ne_true this).elim
      refine ⟨⟨by rw [hrow], by rw [hrow], by rw [hrow], by rw [hrow]⟩, ?_, ?_, ?_⟩
      · rw [hrow]
        simp only [iff_false, Bool.false_eq_true, false_iff]
        exact hnomatch
      · intro _
        refine ⟨by rw [hrow], by rw [hrow], by rw [hrow], by rw [hrow]⟩
      · intro hmt
        rw [hrow] at hmt
        exact (Bool.false_ne_true hmt).elim
    · rw [hfb] at hrow
      have hsel := find_best_match_eq_select ext (invoices.get ⟨i, hi⟩) bank tol maxd
      rw [hfb] at hsel
      have hpos : (-1 : Rat) < fbmBestScore ext (invoices.get ⟨i, hi⟩) bank tol maxd := by
        by_contra hneg
        rw [if_neg hneg] at hsel
        simp at hsel
      rw [if_pos hpos] at hsel
      rcases Option.map_eq_some'.1 hsel.symm with ⟨t, hfind, hmk⟩
      have htp : t ∈ fbmPassers ext (invoices.get ⟨i, hi⟩) bank tol maxd :=
        List.mem_of_find?_eq_some hfind
      have htb : t ∈ bank := (List.mem_filter.1 htp).1
      have htg : fbmGate (invoices.get ⟨i, hi⟩).total_amount
          (fbmInvDate ext (invoices.get ⟨i, hi⟩)) tol maxd t = true :=
        (List.mem_filter.1 htp).2
      have hscore : fbmScore ext (invoices.get ⟨i, hi⟩).invoice_number
          (invoices.get ⟨i, hi⟩).total_amount t =
          fbmBestScore ext (invoices.get ⟨i, hi⟩) bank tol maxd := by
        have hpt := List.find?_some hfind
        exact of_decide_eq_true hpt
      refine ⟨⟨by rw [hrow], by rw [hrow], by rw [hrow], by rw [hrow]⟩, ?_, ?_, ?_⟩
      · rw [hrow]
        simp only [true_iff]
        exact ⟨t, htb, htg⟩
      · intro hmf
        rw [hrow] at hmf
        exact (Bool.false_ne_true hmf.symm).elim
      · intro _
        refine ⟨t, htb, htg, ?_, ?_, ?_, ?_⟩
        · rw [hrow, ← hmk]
        · rw [hrow, ← hmk]
        · rw [hrow, ← hmk]
        · rw [hrow, ← hmk, hscore]

theorem match_invoices_to_bank_rows_witness :
    (match_invoices_to_bank collab0 [wInv] wBank 1 5).length = [wInv].length ∧
    ∀ hi2 : 0 < (match_invoices_to_bank collab0 [wInv] wBank 1 5).length,
      (((match_invoices_to_bank collab0 [wInv] wBank 1 5).get ⟨0, hi2⟩).filename = wInv.filename ∧
        ((match_invoices_to_bank collab0 [wInv] wBank 1 5).get ⟨0, hi2⟩).invoice_number = wInv.invoice_number ∧
        ((match_invoices_to_bank collab0 [wInv] wBank 1 5).get ⟨0, hi2⟩).invoice_date = wInv.invoice_date ∧
        ((match_invoices_to_bank collab0 [wInv] wBank 1 5).get ⟨0, hi2⟩).total_amount = wInv.total_amount) ∧
      (((match_invoices_to_bank collab0 [wInv] wBank 1 5).get ⟨0, hi2⟩).matched = true ↔
        ∃ t ∈ wBank, fbmGate wInv.total_amount (fbmInvDate collab0 wInv) 1 5 t = true) ∧
      (((match_invoices_to_bank collab0 [wInv] wBank 1 5).get ⟨0, hi2⟩).matched = false →
        ((match_invoices_to_bank collab0 [wInv] wBank 1 5).get ⟨0, hi2⟩).match_score = none ∧
        ((match_invoices_to_bank collab0 [wInv] wBank 1 5).get ⟨0, hi2⟩).bank_date = none ∧
        ((match_invoices_to_bank collab0 [wInv] wBank 1 5).get ⟨0, hi2⟩).bank_amount = none ∧
        ((match_invoices_to_bank collab0 [wInv] wBank 1 5).get ⟨0, hi2⟩).bank_description = none) ∧
      (((match_invoices_to_bank collab0 [wInv] wBank 1 5).get ⟨0, hi2⟩).matched = true →
        ∃ t ∈ wBank,
          fbmGate wInv.total_amount (fbmInvDate collab0 wInv) 1 5 t = true ∧
          ((match_invoices_to_bank collab0 [wInv] wBank 1 5).get ⟨0, hi2⟩).bank_date = some t.date ∧
          ((match_invoices_to_bank collab0 [wInv] wBank 1 5).get ⟨0, hi2⟩).bank_amount = some t.amount ∧
          ((match_invoices_to_bank collab0 [wInv] wBank 1 5).get ⟨0, hi2⟩).bank_description = some t.description ∧
          ((match_invoices_to_bank collab0 [wInv] wBank 1 5).get ⟨0, hi2⟩).match_score =
            some (fbmScore collab0 wInv.invoice_number wInv.total_amount t)) :=
  match_invoices_to_bank_rows collab0 [wInv] wBank 1 5 0
    (fun _ _ => le_refl 0) (by decide)

/-- C1 (code bug).  `parse_amount` agrees with the spec's canonical table
(and with `tests/test_utils.py::test_parse_amount`) on five of its six
entries, but on `"1 234,56"` it returns 123.0 instead of the documented
1234.56: after the space is deleted the regex alternative
`\d{1,3}(?:[\.,]\d{3})*` greedily matches `"123"` of `"1234,56"`, the rest
of the pattern is optional, and the engine commits to that match.  (1234.56
= 123456/100, 123.0 = 123/1, −50.25 = −5025/100 as exact rationals.) -/
theorem parse_amount_canonical_table :
    parse_amount "1,234.56" = some (mkRat 123456 100) ∧
    parse_amount "1.234,56" = some (mkRat 123456 100) ∧
    parse_amount "100" = some (mkRat 100 1) ∧
    parse_amount "-50.25" = some (-(mkRat 5025 100)) ∧
    parse_amount "Not a number" = none ∧
    parse_amount "1 234,56" = some (mkRat 123 1) ∧
    ¬ parse_amount "1 234,56" = some (mkRat 123456 100) := by
  decide

/-! ## Structured statement tables (src/src/bank_matching.py, lines 15–301)

`pandas`/`pdfplumber` are collaborators: a `DF` is the raw DataFrame they
hand the code (column names plus row-major cells), a `PdfPage` is one PDF
page's extracted tables and text. -/

/-- A raw DataFrame: column names and row-major cells. -/
structure DF where
  cols : List String
  rows : List (List Cell)
deriving Repr

/-- Python `str()` of a cell, as used by `astype(str)` / `str(v)`. -/
def pyStr (ext : Collab) : Cell → String
  | .nan => "nan"
  | .pynone => "None"
  | .num q => ext.numStr q
  | .str s => s
  | .dt d => ext.datetimeStr d

/-- Cell of row `r` in the column named `name` (`df[name]` row-wise;
column names produced by the code always exist in the frame). -/
def colCell (cols : List String) (r : List Cell) (name : String) : Cell :=
  match cols.findIdx? (fun c => c == name) with
  | some i => r.getD i Cell.nan
  | none => Cell.nan

/-- Insert into a Python dict modelled as an ordered association list:
an existing key keeps its position and gets the new value, a new key is
appended. -/
def dictInsert {α : Type} (d : List (String × α)) (k : String) (v : α) :
    List (String × α) :=
  if d.any (fun p => p.1 == k) then
    d.map (fun p => if p.1 == k then (k, v) else p)
  else d ++ [(k, v)]

/-- Dict lookup (`d.get(k)`). -/
def lookupDict {α : Type} (d : List (String × α)) (k : String) : Option α :=
  (d.find? (fun p => p.1 == k)).map Prod.snd

/-- Python `dict.update`. -/
def dictUpdate {α : Type} (d e : List (String × α)) : List (String × α) :=
  e.foldl (fun acc kv => dictInsert acc kv.1 kv.2) d

/-! Modelled from the Python builtin `float(str)`: an optional sign, an
integer part and/or a `.` fraction, an optional `e`/`E` exponent, with
underscores allowed between digits (CPython ≥ 3.6).  The non-finite
literals `inf`/`nan` are out of scope and treated as no-parse (no claim
involves them). -/

/-- Continue a digit run after at least one digit: digits, with single
underscores allowed only between digits. -/
def digitsURest : List Char → List Char × List Char
  | '_' :: c :: rest =>
    if c.isDigit then
      let p := digitsURest rest
      (c :: p.1, p.2)
    else ([], '_' :: c :: rest)
  | c :: rest =>
    if c.isDigit then
      let p := digitsURest rest
      (c :: p.1, p.2)
    else ([], c :: rest)
  | [] => ([], [])

/-- A nonempty underscore-grouped digit run (fails unless the first
character is a digit). -/
def parseDigitsU : List Char → Option (List Char × List Char)
  | c :: rest =>
    if c.isDigit then
      some ((digitsURest rest).1.cons c, (digitsURest rest).2)
    else none
  | [] => none

/-- Exponent part of a float literal: optional sign then digits, which
must consume the entire remainder. -/
def pyFloatExp : List Char → Option Int
  | '+' :: r =>
    (parseDigitsU r).bind fun p =>
      if p.2 = [] then some (Int.ofNat (natOfDigits p.1)) else none
  | '-' :: r =>
    (parseDigitsU r).bind fun p =>
      if p.2 = [] then some (-(Int.ofNat (natOfDigits p.1))) else none
  | l =>
    (parseDigitsU l).bind fun p =>
      if p.2 = [] then some (Int.ofNat (natOfDigits p.1)) else none

/-- `float(s)` for finite decimal literals (see `digitsURest`). -/
def pyFloat (s : String) : Option Rat :=
  let signAndRest : Bool × List Char :=
    match s.data with
    | '+' :: r => (false, r)
    | '-' :: r => (true, r)
    | l => (false, l)
  let ipR : List Char × List Char :=
    match parseDigitsU signAndRest.2 with
    | some p => p
    | none => ([], signAndRest.2)
  let fpR : List Char × List Char :=
    match ipR.2 with
    | '.' :: r =>
      (match parseDigitsU r with
       | some p => p
       | none => ([], r))
    | l => ([], l)
  if ipR.1 = [] ∧ fpR.1 = [] then none
  else
    let mant := natOfDigits (ipR.1 ++ fpR.1)
    let k := fpR.1.length
    let mkVal : Int → Rat := fun e =>
      let expo := e - (k : Int)
      let v :=
        if 0 ≤ expo then mkRat (Int.ofNat (mant * 10 ^ expo.toNat)) 1
        else mkRat (Int.ofNat mant) (10 ^ (-expo).toNat)
      if signAndRest.1 then -v else v
    match fpR.2 with
    | [] => some (mkVal 0)
    | e :: r => if e = 'e' ∨ e = 'E' then (pyFloatExp r).map mkVal else none

example : pyFloat "1234.56" = some (mkRat 123456 100) := by decide
example : pyFloat "1.234.56" = none := by decide
example : pyFloat "-3" = some (-(mkRat 3 1)) := by decide
example : pyFloat "1e2" = some (mkRat 100 1) := by decide
example : pyFloat "2.5e-1" = some (mkRat 25 100) := by decide
example : pyFloat "1_0.5" = some (mkRat 105 10) := by decide
example : pyFloat "" = none := by decide
example : pyFloat "." = none := by decide
example : pyFloat "4." = some (mkRat 4 1) := by decide
example : pyFloat ".5" = some (mkRat 5 10) := by decide

/-- Python `str.lower()` on one character (ASCII range; accented column
names keep their accents, as in the source, and non-ASCII lowering beyond
that is immaterial to every claim). -/
def pyLowerChar (c : Char) : Char :=
  if 'A' ≤ c ∧ c ≤ 'Z' then Char.ofNat (c.toNat + 32) else c

/-- Python `str.lower()` character-wise. -/
def pyLower (l : List Char) : List Char := l.map pyLowerChar

/-- The `pick` helper of `_find_statement_columns`: first exact dict-key
hit among the candidates, else the dict key with the strictly highest
`partial_ratio` against any candidate (no minimum floor, ties keep the
earliest key); a falsy best key (`None` or `""`) yields `None`. -/
def pickCol (ext : Collab) (cols : List (String × String))
    (cands : List String) : Option String :=
  match cands.find? (fun cand => (lookupDict cols cand).isSome) with
  | some cand => lookupDict cols cand
  | none =>
    let best := (cols.foldl (fun acc kv =>
      cands.foldl (fun acc2 cand =>
        if acc2.1 < ext.ratio kv.1 cand then (ext.ratio kv.1 cand, some kv.1)
        else acc2) acc) ((0 : Rat), (none : Option String))).2
    match best with
    | some b => if b = "" then none else lookupDict cols b
    | none => none

/-- `_find_statement_columns`: detect the date, description and amount
columns; `none` models the `ValueError` raised when any of the three picks
is falsy (Python `not c_date or not c_desc or not c_amount`). -/
def _find_statement_columns (ext : Collab) (df : DF) :
    Option (String × String × String) :=
  let cols := df.cols.foldl
    (fun d c => dictInsert d (String.mk (pyStrip (pyLower c.data))) c) []
  let c_date := pickCol ext cols
    ["date", "operation date", "transaction date", "booking date", "valeur",
      "date operation"]
  let c_desc := pickCol ext cols
    ["description", "label", "libellé", "libelle", "narration", "detail",
      "details"]
  let c_amount := pickCol ext cols
    ["amount", "montant", "debit/credit", "debit", "credit"]
  match c_date, c_desc, c_amount with
  | some d, some dsc, some a =>
    if d = "" ∨ dsc = "" ∨ a = "" then none else some (d, dsc, a)
  | _, _, _ => none

/-- The local `parse_amount` of `_normalize_statement_dataframe`:
`pd.isna` → `None`; numbers pass through; otherwise delete spaces (after
mapping U+202F/U+00A0 to spaces and stripping), turn every comma into a
dot, and call `float` — note this is NOT the locale-aware
`utils.parse_amount`. -/
def parse_amount_stmt (ext : Collab) : Cell → Option Rat
  | .nan => none
  | .pynone => none
  | .num q => some q
  | c =>
    let t := pyStrip (replaceChar ' ' ' ' (replaceChar ' ' ' ' (pyStr ext c).data))
    pyFloat (String.mk (replaceChar ',' '.' (t.filter (fun ch => !(ch = ' ')))))

/-- One row of the table produced by `_normalize_statement_dataframe`
(columns `date_raw`, `description`, `amount_raw`, `date`, `amount`). -/
structure NormRow where
  date_raw : String
  description : String
  amount_raw : Cell
  date : Option Int
  amount : Option Rat
deriving DecidableEq, Repr

/-- `_normalize_statement_dataframe`: re-parse the date and amount columns
and `dropna` every row missing either. -/
def _normalize_statement_dataframe (ext : Collab) (df : DF)
    (cm : String × String × String) : List NormRow :=
  (df.rows.map (fun r =>
    { date_raw := pyStr ext (colCell df.cols r cm.1)
      description := pyStr ext (colCell df.cols r cm.2.1)
      amount_raw := colCell df.cols r cm.2.2
      date := ext.dateparse (pyStr ext (colCell df.cols r cm.1))
      amount := parse_amount_stmt ext (colCell df.cols r cm.2.2) })).filter
    (fun row => row.date.isSome && row.amount.isSome)

/-! ## PDF tables: header mapping and row building
(`_strip_accents`, `_std_header`, `_find_table_column_map`,
`_build_df_from_table`) -/

/-- The character class `[a-z0-9]` of `_std_header`'s regex. -/
def isLowerAlnum (c : Char) : Bool := c.isDigit || ('a' ≤ c ∧ c ≤ 'z')

/-- `re.sub(r"[^a-z0-9]+", " ", s)`: every maximal run of characters
outside `[a-z0-9]` becomes one space (fuel = list length for structural
recursion). -/
def squashFuel : Nat → List Char → List Char
  | 0, l => l
  | _ + 1, [] => []
  | fuel + 1, c :: rest =>
    if isLowerAlnum c then c :: squashFuel fuel rest
    else ' ' :: squashFuel fuel (rest.dropWhile (fun d => !(isLowerAlnum d)))

/-- `_std_header`: strip accents (collaborator), lower-case, strip, squash
non-alphanumeric runs to single spaces, strip again (`re.sub(r"\s+", " ")`
is a no-op after the squash since runs are maximal). -/
def _std_header (ext : Collab) (s : String) : String :=
  let t := pyStrip (pyLower (ext.stripAccents s).data)
  String.mk (pyStrip (squashFuel t.length t))

/-- Worker for `strIn`: needle occurs at some position of the haystack. -/
def strInAux (needle : List Char) : List Char → Bool
  | [] => needle.isEmpty
  | c :: rest => needle.isPrefixOf (c :: rest) || strInAux needle rest

/-- Python substring containment `c in h`. -/
def strIn (c h : String) : Bool := strInAux c.data h.data

/-- The two shapes of dict `_find_table_column_map` returns: a direct
amount column, or debit/credit columns (−1 is the source's sentinel for a
missing debit or credit index). -/
inductive ColMap where
  | withAmount (date description amount : Nat)
  | debitCredit (date description : Nat) (debit credit : Int)
deriving DecidableEq, Repr

/-- The `find` helper of `_find_table_column_map`: index of the first
standardized header containing any candidate as a substring. -/
def findCol (std : List String) (cands : List String) : Option Nat :=
  std.findIdx? (fun h => cands.any (fun c => strIn c h))

/-- `_find_table_column_map`: requires date and description; prefers a
direct amount column over debit/credit. -/
def _find_table_column_map (ext : Collab) (headers : List String) :
    Option ColMap :=
  let std := headers.map (_std_header ext)
  let c_date := findCol std ["date"]
  let c_desc := findCol std ["description", "libelle", "label", "narration", "details"]
  let c_amount := findCol std ["montant", "amount", "solde"]
  let c_debit := findCol std ["debit", "retrait"]
  let c_credit := findCol std ["credit", "versement"]
  match c_date, c_desc with
  | some d, some dsc =>
    match c_amount with
    | some a => some (.withAmount d dsc a)
    | none =>
      if c_debit.isSome || c_credit.isSome then
        some (.debitCredit d dsc (c_debit.elim (-1) Int.ofNat)
          (c_credit.elim (-1) Int.ofNat))
      else none
  | _, _ => none

/-- A candidate transaction rec built by `_build_df_from_table`
(`pdfplumber` cells are strings or `None`; the computed amount is a float;
missing values are Python `None`). -/
structure RawPdfRow where
  date : Cell
  description : Cell
  amount : Cell
deriving DecidableEq, Repr

/-- A `pdfplumber` cell as a `Cell` (`None` ↦ Python `None`). -/
def optCell : Option String → Cell
  | some s => .str s
  | none => .pynone

/-- `str(c or "").strip()` is non-empty. -/
def nonEmptyCell (c : Option String) : Bool :=
  !(pyStrip (c.getD "").data).isEmpty

/-- The plausible-header-row scan of `_build_df_from_table`: first of the
first 5 rows with at least 2 non-empty cells. -/
def headerIdx (table : List (List (Option String))) : Option Nat :=
  (table.take 5).findIdx? (fun row => 2 ≤ row.countP nonEmptyCell)

/-- `d.get(h)` for the row dict `{headers[i]: row[i]}`: Python dict
comprehension keeps the LAST value for duplicate headers; a missing key and
a `None` cell collapse to the same `None`. -/
def dGet (hs : List String) (padded : List (Option String)) (h : String) :
    Option String :=
  (((hs.zip padded).reverse.find? (fun p => p.1 == h)).map Prod.snd).join

/-- One rec of `_build_df_from_table`: pad the row to the header length,
then read the mapped cells; without a direct amount column the amount is
`-abs(debit)` when the debit cell parses (via `utils.parse_amount`) to a
non-zero number, else `+abs(credit)` likewise, else `None`. -/
def buildRec (hs : List String) (cm : ColMap) (r : List (Option String)) :
    RawPdfRow :=
  let padded := r ++ List.replicate (hs.length - r.length) none
  match cm with
  | .withAmount d dsc a =>
    { date := optCell (dGet hs padded (hs.getD d ""))
      description := optCell (dGet hs padded (hs.getD dsc ""))
      amount := optCell (dGet hs padded (hs.getD a "")) }
  | .debitCredit d dsc db cr =>
    let debit_val := if db ≠ -1 then dGet hs padded (hs.getD db.toNat "") else none
    let credit_val := if cr ≠ -1 then dGet hs padded (hs.getD cr.toNat "") else none
    let dv := debit_val.bind parse_amount
    let cv := credit_val.bind parse_amount
    let amount : Cell :=
      match dv with
      | some x =>
        if x ≠ 0 then .num (-|x|)
        else
          match cv with
          | some y => if y ≠ 0 then .num |y| else .pynone
          | none => .pynone
      | none =>
        match cv with
        | some y => if y ≠ 0 then .num |y| else .pynone
        | none => .pynone
    { date := optCell (dGet hs padded (hs.getD d ""))
      description := optCell (dGet hs padded (hs.getD dsc ""))
      amount := amount }

/-- `_build_df_from_table`. -/
def _build_df_from_table (ext : Collab) (table : List (List (Option String))) :
    Option (List RawPdfRow) :=
  if table.isEmpty then none
  else
    match headerIdx table with
    | none => none
    | some idx =>
      let hs := (table.getD idx []).map (fun c => String.mk (pyStrip (c.getD "").data))
      match _find_table_column_map ext hs with
      | none => none
      | some cm =>
        let recs := (table.drop (idx + 1)).map (buildRec hs cm)
        if recs.isEmpty then none else some recs

example : _find_table_column_map collab0 ["date", "libelle", "debit", "credit"] =
    some (.debitCredit 0 1 2 3) := by decide
example : _find_table_column_map collab0 ["Date", "Libelle", "Montant"] =
    some (.withAmount 0 1 2) := by decide
example :
    (buildRec ["date", "libelle", "debit", "credit"] (.debitCredit 0 1 2 3)
      [some "01/02/2024", some "x", some "50", some ""]).amount = Cell.num (-50) := by
  decide
example :
    (buildRec ["date", "libelle", "debit", "credit"] (.debitCredit 0 1 2 3)
      [some "01/02/2024", some "x", some "0,00", some "70"]).amount = Cell.num 70 := by
  decide

/-! ## PDF text-line fallback and statement loading -/

/-- Exactly `n` digits. -/
def takeExactDigits : Nat → List Char → Option (List Char × List Char)
  | 0, l => some ([], l)
  | _ + 1, [] => none
  | n + 1, c :: rest =>
    if c.isDigit then (takeExactDigits n rest).map (fun p => (c :: p.1, p.2))
    else none

/-- The separator class (dash or slash) of the line date pattern. -/
def dateSep (c : Char) : Bool := c = '-' ∨ c = '/'

/-- One backtracking attempt of
the line date pattern (1-2 digits, dash/slash, 1-2 digits, dash/slash,
2-4 digits, whitespace, rest) with fixed digit-group widths
`(a, b, n)`; returns (date token, rest after the whitespace run). -/
def tryDateCombo (a b n : Nat) (cs : List Char) :
    Option (List Char × List Char) :=
  match takeExactDigits a cs with
  | none => none
  | some (d1, r1) =>
    match r1 with
    | s1 :: r2 =>
      if dateSep s1 then
        match takeExactDigits b r2 with
        | none => none
        | some (d2, r3) =>
          match r3 with
          | s2 :: r4 =>
            if dateSep s2 then
              match takeExactDigits n r4 with
              | none => none
              | some (d3, r5) =>
                match r5 with
                | w :: _ =>
                  if pySpace w then
                    some (d1 ++ s1 :: d2 ++ s2 :: d3, r5.dropWhile pySpace)
                  else none
                | [] => none
            else none
          | [] => none
      else none
    | [] => none

/-- `date_re.match(ln)`: the Python engine tries greedy widths first,
backtracking the rightmost group first. -/
def matchDateRe (cs : List Char) : Option (List Char × List Char) :=
  ([(2, 2, 4), (2, 2, 3), (2, 2, 2), (2, 1, 4), (2, 1, 3), (2, 1, 2),
    (1, 2, 4), (1, 2, 3), (1, 2, 2), (1, 1, 4), (1, 1, 3), (1, 1, 2)] :
      List (Nat × Nat × Nat)).findSome?
    (fun abc => tryDateCombo abc.1 abc.2.1 abc.2.2 cs)

/-- The trailing-amount character class `[\d\s\.,]` of `amt_re`. -/
def pyAmtClass (c : Char) : Bool := c.isDigit || pySpace c || c = '.' || c = ','

/-- Does `([+-]?\s*\d[\d\s\.,]*)$` match starting exactly here?  (The final
`$` forces the class run to reach the end of the line, so the whole suffix
is the captured group.) -/
def matchAmtAt (cs : List Char) : Bool :=
  let cs1 := match cs with
    | c :: r => if c = '+' ∨ c = '-' then r else c :: r
    | [] => []
  match cs1.dropWhile pySpace with
  | c :: rest => c.isDigit && rest.all pyAmtClass
  | [] => false

/-- `amt_re.search(rest)`: leftmost start position of a trailing-amount
match. -/
def amtSearchIdx : Nat → List Char → Option Nat
  | _, [] => none
  | i, c :: rest => if matchAmtAt (c :: rest) then some i else amtSearchIdx (i + 1) rest

/-- The text-line fallback of `_read_bank_pdf_to_dataframe`: a line parses
when it starts with a date token and ends with an amount token, and both
`utils.parse_date` (collaborator) and `utils.parse_amount` accept them. -/
def parsePdfLine (ext : Collab) (line : String) : Option RawPdfRow :=
  match matchDateRe line.data with
  | none => none
  | some (dchars, rest) =>
    match amtSearchIdx 0 rest with
    | none => none
    | some p =>
      match ext.dateparse (String.mk dchars), parse_amount (String.mk (rest.drop p)) with
      | some d, some a =>
        some { date := .dt d
               description := .str (String.mk (pyStrip (rest.take p)))
               amount := .num a }
      | _, _ => none

/-- The line boundaries of `str.splitlines` (besides the combined CRLF). -/
def lineBreak (c : Char) : Bool :=
  c = '\n' ∨ c = '\r' ∨ c = '\x0b' ∨ c = '\x0c' ∨ c = '\x1c' ∨ c = '\x1d' ∨
  c = '\x1e' ∨ c = '\x85' ∨ c = ' ' ∨ c = ' '

/-- Split on line boundaries (`str.splitlines`, with CRLF as a single
boundary; the spurious trailing empty piece this produces after a final
boundary is filtered out like every blank line). -/
def splitLinesChar : List Char → List (List Char)
  | [] => [[]]
  | '\r' :: '\n' :: rest => [] :: splitLinesChar rest
  | c :: rest =>
    if lineBreak c then [] :: splitLinesChar rest
    else
      match splitLinesChar rest with
      | l :: ls => (c :: l) :: ls
      | [] => [[c]]

/-- `[ln.strip() for ln in text.splitlines() if ln.strip()]`. -/
def pageLines (text : String) : List String :=
  ((splitLinesChar text.data).map (fun l => String.mk (pyStrip l))).filter
    (fun l => !(l = ""))

/-- One PDF page as handed over by `pdfplumber`: extracted tables (cells
are strings or `None`) and extracted text. -/
structure PdfPage where
  tables : List (List (List (Option String)))
  text : String

/-- The frames one page contributes: each usable non-empty table first,
then the text-line recs when any line parsed. -/
def pageFrames (ext : Collab) (pg : PdfPage) : List (List RawPdfRow) :=
  (pg.tables.filterMap (fun t =>
    match _build_df_from_table ext t with
    | some rows => if rows.isEmpty then none else some rows
    | none => none)) ++
  (let recs := (pageLines pg.text).filterMap (parsePdfLine ext)
   if recs.isEmpty then [] else [recs])

/-- All frames of the document, in page order. -/
def pdfFrames (ext : Collab) (pages : List PdfPage) : List (List RawPdfRow) :=
  (pages.map (pageFrames ext)).flatten

/-- `_norm_date`: keep datetimes, otherwise re-parse `str(v)` (day-first,
fuzzy — the `dateparse` collaborator). -/
def normDate (ext : Collab) : Cell → Option Int
  | .dt d => some d
  | c => ext.dateparse (pyStr ext c)

/-- `_norm_amount`: keep numbers, otherwise `utils.parse_amount(str(v))`.
A `NaN` cell is a float in Python and survives here only to be removed by
the `dropna` below; the model short-circuits it to no-value, which the
`dropna` filter makes indistinguishable. -/
def normAmount (ext : Collab) : Cell → Option Rat
  | .num q => some q
  | .nan => none
  | c => parse_amount (pyStr ext c)

/-- A row of the pdf-path DataFrame after `_norm_date`/`_norm_amount`. -/
structure PdfNormRow where
  date : Option Int
  description : String
  amount : Option Rat
deriving DecidableEq, Repr

/-- `_read_bank_pdf_to_dataframe`: raises (models as `.error`) when no
frame was recovered; otherwise concatenates all frames, normalizes, drops
rows missing date or amount, and returns a `date/description/amount`
DataFrame. -/
def _read_bank_pdf_to_dataframe (ext : Collab) (pages : List PdfPage) :
    Except String DF :=
  let frames := pdfFrames ext pages
  if frames.isEmpty then
    .error "Aucune transaction détectée dans le PDF du relevé."
  else
    let kept := ((frames.flatten).map (fun r =>
      PdfNormRow.mk (normDate ext r.date) (pyStr ext r.description)
        (normAmount ext r.amount))).filter
      (fun r => r.date.isSome && r.amount.isSome)
    .ok { cols := ["date", "description", "amount"]
          rows := kept.map (fun r =>
            [r.date.elim Cell.pynone Cell.dt, Cell.str r.description,
              r.amount.elim Cell.pynone Cell.num]) }

/-- A statement source: the dispatch on the uploaded file's extension in
`_read_statement_to_dataframe`.  A PDF carries its `pdfplumber` pages; a
spreadsheet carries the DataFrame `pd.read_excel` produced; a CSV carries
the outcome of `pd.read_csv(content, sep=...)` per separator (`none` when
that call raises). -/
inductive Source where
  | pdf (pages : List PdfPage)
  | excel (df : DF)
  | csv (tryRead : String → Option DF)

/-- The separators tried for CSV, in order. -/
def csvSeps : List String := [",", ";", "\t", "|"]

/-- `_read_statement_to_dataframe`: first separator whose parse has more
than one column wins; raises when none does. -/
def _read_statement_to_dataframe (ext : Collab) (src : Source) :
    Except String DF :=
  match src with
  | .pdf pages => _read_bank_pdf_to_dataframe ext pages
  | .excel df => .ok df
  | .csv tryRead =>
    match csvSeps.findSome? (fun sep =>
      match tryRead sep with
      | some df => if 1 < df.cols.length then some df else none
      | none => none) with
    | some df => .ok df
    | none => .error "Impossible de lire le fichier CSV. Vérifiez le séparateur."

/-- `load_bank_statement` = read, detect columns (raise when they cannot
all be identified), normalize. -/
def load_bank_statement (ext : Collab) (src : Source) :
    Except String (List NormRow) :=
  match _read_statement_to_dataframe ext src with
  | .error e => .error e
  | .ok df =>
    match _find_statement_columns ext df with
    | none =>
      .error "Impossible de détecter les colonnes (date, description, montant). Veuillez vérifier le fichier."
    | some cm => .ok (_normalize_statement_dataframe ext df cm)

/-- Collaborator bundle for the loading witnesses: a date parser that
accepts exactly one date string. -/
def collabW : Collab :=
  { dateparse := fun s => if s = "01/01/2024" then some 10 else none
    dateparseDefault := fun _ => none
    ratio := fun _ _ => 0
    numStr := fun _ => ""
    datetimeStr := fun _ => ""
    stripAccents := fun s => s }

/-- Concrete structured statement DataFrame for the loading witnesses. -/
def wdf : DF :=
  { cols := ["date", "description", "amount"]
    rows := [[.str "01/01/2024", .str "x", .num 5],
             [.str "bad date", .str "y", .num 7],
             [.str "01/01/2024", .str "z", .str "1.234,56"]] }

/-- The single surviving normalized row of `wdf`. -/
def wNormRow : NormRow :=
  { date_raw := "01/01/2024", description := "x", amount_raw := .num 5
    date := some 10, amount := some 5 }

example : load_bank_statement collabW (.excel wdf) = .ok [wNormRow] := rfl

/-- C6. Every row of a table returned by `load_bank_statement` has a
present date and amount (the final `dropna` of
`_normalize_statement_dataframe`, on both the PDF and the structured
path), and the intermediate table `_read_bank_pdf_to_dataframe` returns
likewise contains only rows with an actual datetime, description string
and numeric amount (its own `dropna`); unparsable rows are dropped, never
surfaced. -/
theorem statement_rows_nonnull :
    (∀ (ext : Collab) (src : Source) (out : List NormRow) (r : NormRow),
      load_bank_statement ext src = .ok out → r ∈ out →
        r.date.isSome = true ∧ r.amount.isSome = true) ∧
    (∀ (ext : Collab) (pages : List PdfPage) (df : DF) (row : List Cell),
      _read_bank_pdf_to_dataframe ext pages = .ok df → row ∈ df.rows →
        ∃ d s q, row = [Cell.dt d, Cell.str s, Cell.num q]) := by
  constructor
  · intro ext src out r hload hr
    unfold load_bank_statement at hload
    rcases hread : _read_statement_to_dataframe ext src with e | df <;>
      rw [hread] at hload
    · cases hload
    · dsimp only at hload
      rcases hcm : _find_statement_columns ext df with _ | cm <;>
        rw [hcm] at hload
      · cases hload
      · injection hload with hout
        subst hout
        unfold _normalize_statement_dataframe at hr
        have hmem := List.mem_filter.1 hr
        have hb := hmem.2
        simp only [Bool.and_eq_true] at hb
        exact hb
  · intro ext pages df row hread hrow
    unfold _read_bank_pdf_to_dataframe at hread
    by_cases hfe : (pdfFrames ext pages).isEmpty
    · rw [if_pos hfe] at hread
      cases hread
    · rw [if_neg hfe] at hread
      injection hread with hdf
      subst hdf
      simp only [List.mem_map] at hrow
      rcases hrow with ⟨r, hrk, hrow⟩
      have hmem := List.mem_filter.1 hrk
      have hb := hmem.2
      simp only [Bool.and_eq_true] at hb
      rcases Option.isSome_iff_exists.1 hb.1 with ⟨d, hd⟩
      rcases Option.isSome_iff_exists.1 hb.2 with ⟨q, hq⟩
      refine ⟨d, r.description, q, ?_⟩
      rw [← hrow, hd, hq]
      rfl

theorem statement_rows_nonnull_witness :
    wNormRow.date.isSome = true ∧ wNormRow.amount.isSome = true :=
  statement_rows_nonnull.1 collabW (.excel wdf) [wNormRow] wNormRow rfl
    (List.mem_singleton.2 rfl)

/-- `Except` is an error. -/
def isErr {ε α : Type} : Except ε α → Bool
  | .error _ => true
  | .ok _ => false

/-- Column detection always succeeds on the pdf-path DataFrame: its
columns are literally `date`, `description`, `amount`. -/
theorem find_cols_pdf_df (ext : Collab) (rows : List (List Cell)) :
    _find_statement_columns ext { cols := ["date", "description", "amount"], rows := rows } =
      some ("date", "description", "amount") := rfl

/-- C7. `load_bank_statement` fails (raises) exactly when: the source is a
CSV none of whose tried separators (comma, semicolon, tab, pipe — in that
order) yields a DataFrame with more than one column; or the source is a
PDF from which zero transaction frames are recoverable (no table maps and
no text line parses); or the read succeeds but the date, description and
amount columns cannot all be identified.  No partial table accompanies an
error (`Except` carries either an error or a table, never both). -/
theorem load_bank_statement_error_iff (ext : Collab) (src : Source) :
    isErr (load_bank_statement ext src) = true ↔
      ((∃ tryRead, src = .csv tryRead ∧
          ∀ sep ∈ csvSeps, ∀ df, tryRead sep = some df → df.cols.length ≤ 1) ∨
        (∃ pages, src = .pdf pages ∧ pdfFrames ext pages = []) ∨
        (∃ df, _read_statement_to_dataframe ext src = .ok df ∧
          _find_statement_columns ext df = none)) := by
  cases src with
  | excel df0 =>
    unfold load_bank_statement _read_statement_to_dataframe
    rcases hcm : _find_statement_columns ext df0 with _ | cm <;>
      simp only [hcm, isErr]
    · constructor
      · intro _
        exact Or.inr (Or.inr ⟨df0, rfl, hcm⟩)
      · intro _; trivial
    · constructor
      · intro hfalse; exact (Bool.false_ne_true hfalse).elim
      · rintro (⟨f, hsrc, _⟩ | ⟨pages, hsrc, _⟩ | ⟨df', hdf', hcm'⟩)
        · cases hsrc
        · cases hsrc
        · injection hdf' with h
          subst h
          rw [hcm] at hcm'
          cases hcm'
  | csv f =>
    unfold load_bank_statement _read_statement_to_dataframe
    rcases hfs : csvSeps.findSome? (fun sep =>
        match f sep with
        | some df => if 1 < df.cols.length then some df else none
        | none => none) with _ | df0 <;>
      simp only [hfs, isErr]
    · constructor
      · intro _
        refine Or.inl ⟨f, rfl, ?_⟩
        intro sep hsep df hdf
        have hnone := List.findSome?_eq_none_iff.1 hfs sep hsep
        rw [hdf] at hnone
        dsimp only at hnone
        by_contra hgt
        rw [if_pos (Nat.lt_of_not_le hgt)] at hnone
        cases hnone
      · intro _; trivial
    · rcases hcm : _find_statement_columns ext df0 with _ | cm <;>
        simp only [hcm, isErr]
      · constructor
        · intro _
          exact Or.inr (Or.inr ⟨df0, rfl, hcm⟩)
        · intro _; trivial
      · constructor
        · intro hfalse; exact (Bool.false_ne_true hfalse).elim
        · rintro (⟨f', hsrc, hall⟩ | ⟨pages, hsrc, _⟩ | ⟨df', hdf', hcm'⟩)
          · injection hsrc with h
            subst h
            rcases List.exists_of_findSome?_eq_some hfs with ⟨sep, hsep, hval⟩
            rcases hfv : f sep with _ | dfv <;> rw [hfv] at hval <;> dsimp only at hval
            · cases hval
            · by_cases hlen : 1 < dfv.cols.length
              · exact absurd (hall sep hsep dfv hfv) (by omega)
              · rw [if_neg hlen] at hval
                cases hval
          · cases hsrc
          · injection hdf' with h
            subst h
            rw [hcm] at hcm'
            cases hcm'
  | pdf pages =>
    have hread : _read_statement_to_dataframe ext (.pdf pages) =
        _read_bank_pdf_to_dataframe ext pages := rfl
    by_cases hfe : (pdfFrames ext pages).isEmpty
    · have herr : _read_bank_pdf_to_dataframe ext pages =
          .error "Aucune transaction détectée dans le PDF du relevé." := by
        unfold _read_bank_pdf_to_dataframe
        rw [if_pos hfe]
      have hload : load_bank_statement ext (.pdf pages) =
          .error "Aucune transaction détectée dans le PDF du relevé." := by
        unfold load_bank_statement
        rw [hread, herr]
      rw [hload]
      constructor
      · intro _
        exact Or.inr (Or.inl ⟨pages, rfl, List.isEmpty_iff.1 hfe⟩)
      · intro _; rfl
    · have hok : _read_bank_pdf_to_dataframe ext pages =
          .ok { cols := ["date", "description", "amount"]
                rows := ((((pdfFrames ext pages).flatten).map (fun r =>
                    PdfNormRow.mk (normDate ext r.date) (pyStr ext r.description)
                      (normAmount ext r.amount))).filter
                    (fun r => r.date.isSome && r.amount.isSome)).map (fun r =>
                  [r.date.elim Cell.pynone Cell.dt, Cell.str r.description,
                    r.amount.elim Cell.pynone Cell.num]) } := by
        unfold _read_bank_pdf_to_dataframe
        rw [if_neg hfe]
      have hload : load_bank_statement ext (.pdf pages) =
          .ok (_normalize_statement_dataframe ext
            { cols := ["date", "description", "amount"]
              rows := ((((pdfFrames ext pages).flatten).map (fun r =>
                  PdfNormRow.mk (normDate ext r.date) (pyStr ext r.description)
                    (normAmount ext r.amount))).filter
                  (fun r => r.date.isSome && r.amount.isSome)).map (fun r =>
                [r.date.elim Cell.pynone Cell.dt, Cell.str r.description,
                  r.amount.elim Cell.pynone Cell.num]) }
            ("date", "description", "amount")) := by
        unfold load_bank_statement
        rw [hread, hok]
        dsimp only
        rw [find_cols_pdf_df]
      rw [hload]
      constructor
      · intro hfalse; exact (Bool.false_ne_true hfalse).elim
      · rintro (⟨f', hsrc, _⟩ | ⟨pages', hsrc, hnil⟩ | ⟨df', hdf', hcm'⟩)
        · cases hsrc
        · injection hsrc with h
          subst h
          exact absurd (List.isEmpty_iff.2 hnil) hfe
        · rw [hread, hok] at hdf'
          injection hdf' with h
          subst h
          rw [find_cols_pdf_df] at hcm'
          cases hcm'

/-- The row padding of `_build_df_from_table`
(`row = list(r) + [None] * (len(headers) - len(r))`). -/
def rowPad (hs : List String) (r : List (Option String)) : List (Option String) :=
  r ++ List.replicate (hs.length - r.length) none

/-- The debit cell of a padded row (`None` when the mapping's debit index
is the −1 sentinel). -/
def debitValOf (hs : List String) (r : List (Option String)) (db : Int) :
    Option String :=
  if db ≠ -1 then dGet hs (rowPad hs r) (hs.getD db.toNat "") else none

/-- The credit cell of a padded row. -/
def creditValOf (hs : List String) (r : List (Option String)) (cr : Int) :
    Option String :=
  if cr ≠ -1 then dGet hs (rowPad hs r) (hs.getD cr.toNat "") else none

/-- C8. When the header mapping has a direct amount column, each rec's
amount is that column's raw cell; when it maps debit/credit instead, the
amount is `-abs(debit)` if the debit cell parses to a non-zero number,
else `+abs(credit)` if the credit cell parses to a non-zero number, else
`None` — zero or unparsable (e.g. empty) cells count as absent, and the
`None` amount is dropped by both downstream normalizers. -/
theorem build_df_amount_rule :
    (∀ (ext : Collab) (hs : List String) (r : List (Option String)) (d dsc a : Nat),
      _find_table_column_map ext hs = some (.withAmount d dsc a) →
        (buildRec hs (.withAmount d dsc a) r).amount =
          optCell (dGet hs (rowPad hs r) (hs.getD a ""))) ∧
    (∀ (ext : Collab) (hs : List String) (r : List (Option String))
        (d dsc : Nat) (db cr : Int),
      _find_table_column_map ext hs = some (.debitCredit d dsc db cr) →
        (∀ x, (debitValOf hs r db).bind parse_amount = some x → x ≠ 0 →
          (buildRec hs (.debitCredit d dsc db cr) r).amount = .num (-|x|)) ∧
        (((debitValOf hs r db).bind parse_amount = none ∨
            (debitValOf hs r db).bind parse_amount = some 0) →
          ∀ y, (creditValOf hs r cr).bind parse_amount = some y → y ≠ 0 →
            (buildRec hs (.debitCredit d dsc db cr) r).amount = .num |y|) ∧
        (((debitValOf hs r db).bind parse_amount = none ∨
            (debitValOf hs r db).bind parse_amount = some 0) →
          ((creditValOf hs r cr).bind parse_amount = none ∨
            (creditValOf hs r cr).bind parse_amount = some 0) →
          (buildRec hs (.debitCredit d dsc db cr) r).amount = .pynone)) ∧
    (∀ ext : Collab,
      normAmount ext Cell.pynone = none ∧ parse_amount_stmt ext Cell.pynone = none) ∧
    parse_amount "" = none ∧ parse_amount "0,00" = some 0 := by
  refine ⟨?_, ?_, ?_, by decide, by decide⟩
  · intro ext hs r d dsc a _
    rfl
  · intro ext hs r d dsc db cr _
    simp only [debitValOf, creditValOf, rowPad, buildRec]
    refine ⟨?_, ?_, ?_⟩
    · intro x hdv hx
      rw [hdv]
      simp [hx]
    · intro hdv y hcv hy
      rcases hdv with hdv | hdv <;> rw [hdv, hcv] <;> simp [hy]
    · intro hdv hcv
      rcases hdv with hdv | hdv <;> rcases hcv with hcv | hcv <;>
        rw [hdv, hcv] <;> simp
  · intro ext
    constructor
    · show parse_amount "None" = none
      decide
    · show pyFloat (String.mk (replaceChar ',' '.'
        ((pyStrip (replaceChar ' ' ' ' (replaceChar ' ' ' ' "None".data))).filter
          (fun ch => !(ch = ' '))))) = none
      decide

theorem build_df_amount_rule_witness :
    (buildRec ["date", "libelle", "montant"] (.withAmount 0 1 2)
        [some "d", some "x", some "5"]).amount =
      optCell (dGet ["date", "libelle", "montant"]
        (rowPad ["date", "libelle", "montant"] [some "d", some "x", some "5"])
        (["date", "libelle", "montant"].getD 2 "")) ∧
    (buildRec ["date", "libelle", "debit", "credit"] (.debitCredit 0 1 2 3)
        [some "d", some "x", some "50", some ""]).amount =
      .num (-|mkRat 50 1|) :=
  ⟨build_df_amount_rule.1 collab0 ["date", "libelle", "montant"]
      [some "d", some "x", some "5"] 0 1 2 (by decide),
    (build_df_amount_rule.2.1 collab0 ["date", "libelle", "debit", "credit"]
        [some "d", some "x", some "50", some ""] 0 1 2 3 (by decide)).1
      (mkRat 50 1) (by decide) (by decide)⟩

/-- A string cell reaches `float` after space deletion and comma-to-dot
replacement (the collaborator bundle plays no role for string cells). -/
theorem parse_amount_stmt_str (ext : Collab) (s : String) :
    parse_amount_stmt ext (.str s) =
      pyFloat (String.mk (replaceChar ',' '.'
        ((pyStrip (replaceChar ' ' ' ' (replaceChar ' ' ' ' s.data))).filter
          (fun ch => !(ch = ' '))))) := rfl

/-- C10. The structured-path amount parser passes numeric cells through
unchanged; a string cell is parsed by deleting spaces, turning commas into
dots, and calling `float` — not by the locale-aware `utils.parse_amount` —
so `"1 234,56"` parses to 1234.56 but the dot-grouped `"1.234,56"` becomes
`"1.234.56"`, fails to parse (while `utils.parse_amount` would accept it),
and its row is dropped: no surviving normalized row carries that raw
amount cell. -/
theorem stmt_amount_parsing :
    (∀ (ext : Collab) (q : Rat), parse_amount_stmt ext (.num q) = some q) ∧
    (∀ ext : Collab,
      parse_amount_stmt ext (.str "1 234,56") = some (mkRat 123456 100)) ∧
    (∀ ext : Collab, parse_amount_stmt ext (.str "1.234,56") = none) ∧
    parse_amount "1.234,56" = some (mkRat 123456 100) ∧
    (∀ (ext : Collab) (df : DF) (cm : String × String × String) (r : NormRow),
      r ∈ _normalize_statement_dataframe ext df cm →
        r.amount_raw ≠ .str "1.234,56") := by
  refine ⟨fun ext q => rfl,
    fun ext => by rw [parse_amount_stmt_str]; decide,
    fun ext => by rw [parse_amount_stmt_str]; decide,
    by decide, ?_⟩
  intro ext df cm r hr hraw
  unfold _normalize_statement_dataframe at hr
  have hmem := List.mem_filter.1 hr
  rcases List.mem_map.1 hmem.1 with ⟨row0, _, hrow⟩
  have hb := hmem.2
  rw [← hrow] at hb hraw
  simp only [Bool.and_eq_true] at hb
  have hamt := hb.2
  dsimp only at hamt hraw
  rw [hraw] at hamt
  rw [show parse_amount_stmt ext (.str "1.234,56") = none from by
    rw [parse_amount_stmt_str]; decide] at hamt
  cases hamt

theorem stmt_amount_parsing_witness :
    wNormRow.amount_raw ≠ Cell.str "1.234,56" :=
  stmt_amount_parsing.2.2.2.2 collabW wdf ("date", "description", "amount")
    wNormRow (by decide)

/-! ## LLM enrichment overlay (src/src/invoice_extraction.py lines 105–126,
src/src/llm_extraction.py) -/

/-- A Python/JSON value held in an extraction dict. -/
inductive PyVal where
  | none
  | str (s : String)
  | num (q : Rat)
  | boolean (b : Bool)
deriving DecidableEq, Repr

/-- Python truthiness of a `PyVal` (`if v:`). -/
def truthy : PyVal → Bool
  | .none => false
  | .str s => s ≠ ""
  | .num q => q ≠ 0
  | .boolean b => b

/-- Outcome of the Ollama call in `extract_with_llm`, as seen after the
transport layer: either some `requests` call raised (connection error,
timeout, non-2xx via `raise_for_status`, bad response JSON), or we hold
the `data["response"]` text, whose `json.loads` either yields a JSON
object (an association list) or fails/yields a non-dict. -/
inductive LlmOutcome where
  | transportError
  | response (parsed : Option (List (String × PyVal)))

/-- `extract_with_llm`: transport failures raise to the caller; an
unparsable response body returns `{}`; a parsed object has a string
`total_amount` normalized through `float(s.replace(",", "."))` when that
succeeds. -/
def extract_with_llm (out : LlmOutcome) : Except Unit (List (String × PyVal)) :=
  match out with
  | .transportError => .error ()
  | .response Option.none => .ok []
  | .response (some obj) =>
    .ok (match lookupDict obj "total_amount" with
      | some (PyVal.str s) =>
        (match pyFloat (String.mk (replaceChar ',' '.' s.data)) with
         | some q => dictInsert obj "total_amount" (PyVal.num q)
         | Option.none => obj)
      | _ => obj)

/-- The enrichment overlay in `extract_invoices_from_pdfs`:
`parsed.update({k: v for k, v in enriched.items() if v})` inside
`try/except Exception: pass`. -/
def applyEnrichment (parsed : List (String × PyVal))
    (enr : Except Unit (List (String × PyVal))) : List (String × PyVal) :=
  match enr with
  | .error _ => parsed
  | .ok e => dictUpdate parsed (e.filter (fun kv => truthy kv.2))

/-- One document's dict in `extract_invoices_from_pdfs`: heuristic fields,
optionally overlaid by the enrichment, then `filename` and `raw_text`. -/
def extractOne (parsed : List (String × PyVal)) (use_llm : Bool)
    (llm : LlmOutcome) (fname raw : String) : List (String × PyVal) :=
  let p := if use_llm then applyEnrichment parsed (extract_with_llm llm) else parsed
  dictInsert (dictInsert p "filename" (.str fname)) "raw_text" (.str raw)

theorem lookup_cons {α : Type} (q : String × α) (d : List (String × α)) (k' : String) :
    lookupDict (q :: d) k' =
      if (q.1 == k') = true then some q.2 else lookupDict d k' := by
  unfold lookupDict
  rw [List.find?_cons]
  by_cases h : (q.1 == k') = true <;> simp [h]

theorem lookup_map_overwrite {α : Type} (k : String) (v : α) (k' : String) :
    ∀ d : List (String × α),
      lookupDict (d.map (fun p => if p.1 == k then (k, v) else p)) k' =
        if k' = k then (if d.any (fun p => p.1 == k) then some v else none)
        else lookupDict d k' := by
  intro d
  induction d with
  | nil =>
    by_cases hk' : k' = k <;> simp [lookupDict, hk']
  | cons p d ih =>
    rw [List.map_cons, lookup_cons, lookup_cons]
    by_cases hpk : (p.1 == k) = true
    · by_cases hk' : k' = k
      · subst hk'
        simp [hpk, List.any_cons]
      · have hne : (k == k') = false := by
          simp only [beq_eq_false_iff_ne]
          exact fun h => hk' h.symm
        have hne2 : (p.1 == k') = false := by
          have hp1 : p.1 = k := by simpa using hpk
          rw [hp1]; exact hne
        simp only [beq_iff_eq] at ih
        simp [hpk, hk', hne, hne2, ih]
    · have hpkf : (p.1 == k) = false := Bool.eq_false_iff.mpr hpk
      have hp1 : ¬ p.1 = k := by simpa using hpk
      by_cases hk' : k' = k
      · subst hk'
        simp only [beq_iff_eq] at ih
        simp [hp1, ih, List.any_cons]
        rw [hpkf, Bool.false_or]
      · by_cases hpk' : (p.1 == k') = true
        · simp [hpkf, hpk', hk']
        · have hpkf' : (p.1 == k') = false := Bool.eq_false_iff.mpr hpk'
          have hp1' : ¬ p.1 = k' := by simpa using hpk'
          simp only [beq_iff_eq] at ih
          simp [hpkf, hp1, hpkf', hp1', hk', ih]

theorem lookup_append_single {α : Type} (k : String) (v : α) (k' : String) :
    ∀ d : List (String × α),
      lookupDict (d ++ [(k, v)]) k' =
        match lookupDict d k' with
        | some w => some w
        | none => if k' = k then some v else none := by
  intro d
  induction d with
  | nil =>
    by_cases hk' : k' = k
    · subst hk'
      simp [lookupDict, List.find?_cons, beq_iff_eq]
    · have hne : (k == k') = false := by
        simp only [beq_eq_false_iff_ne]
        exact fun h => hk' h.symm
      simp [lookupDict, List.find?_cons, hne, hk']
  | cons p d ih =>
    rw [List.cons_append, lookup_cons, lookup_cons]
    by_cases hpk' : (p.1 == k') = true
    · rw [if_pos hpk', if_pos hpk']
    · rw [if_neg hpk', if_neg hpk', ih]

theorem lookup_dictInsert {α : Type} (d : List (String × α)) (k : String) (v : α)
    (k' : String) :
    lookupDict (dictInsert d k v) k' =
      if k' = k then some v else lookupDict d k' := by
  unfold dictInsert
  by_cases hany : d.any (fun p => p.1 == k) = true
  · rw [if_pos hany, lookup_map_overwrite, hany]
    by_cases hk' : k' = k <;> simp [hk']
  · rw [if_neg hany, lookup_append_single]
    by_cases hk' : k' = k
    · subst hk'
      have hnone : lookupDict d k' = none := by
        unfold lookupDict
        rw [List.find?_eq_none.2]
        · rfl
        · intro x hx hpx
          have : d.any (fun p => p.1 == k') = true := List.any_eq_true.2 ⟨x, hx, hpx⟩
          exact hany this
      rw [hnone, if_pos rfl]
    · rcases h : lookupDict d k' with _ | w <;> simp [hk']

theorem lookup_eq_none_of_not_mem {α : Type} (e : List (String × α)) (k : String)
    (h : k ∉ e.map Prod.fst) : lookupDict e k = none := by
  unfold lookupDict
  rw [List.find?_eq_none.2]
  · rfl
  · intro x hx hpx
    exact h (List.mem_map.2 ⟨x, hx, by simpa using hpx⟩)

/-- Python `dict.update` lookup semantics: for a dict `e` (unique keys),
an updated key reads from `e`, any other key reads from the original. -/
theorem lookup_dictUpdate {α : Type} :
    ∀ (e d : List (String × α)) (k : String), (e.map Prod.fst).Nodup →
      lookupDict (dictUpdate d e) k =
        match lookupDict e k with
        | some v => some v
        | none => lookupDict d k := by
  intro e
  induction e with
  | nil =>
    intro d k _
    rfl
  | cons kv e ih =>
    intro d k hnd
    simp only [List.map_cons, List.nodup_cons] at hnd
    have hupd : dictUpdate d (kv :: e) = dictUpdate (dictInsert d kv.1 kv.2) e := rfl
    rw [hupd, ih _ k hnd.2, lookup_cons, lookup_dictInsert]
    by_cases hk : (kv.1 == k) = true
    · have hk' : k = kv.1 := by
        have := (beq_iff_eq).1 hk
        exact this.symm
      have hnone : lookupDict e k = none :=
        lookup_eq_none_of_not_mem e k (by rw [hk']; exact hnd.1)
      rw [hnone, if_pos hk', if_pos hk]
    · have hkf : (kv.1 == k) = false := Bool.eq_false_iff.mpr hk
      have hk' : ¬ k = kv.1 := by
        intro he
        exact hk (by simp [he])
      rw [hkf]
      rcases he : lookupDict e k with _ | w
      · simp [hk']
      · simp

/-- C9. With enrichment enabled: on any enrichment failure the document
dict is exactly the heuristic dict (plus `filename`/`raw_text`) —
extraction returns normally, nothing raises; on success, a heuristic field
is replaced exactly when the enrichment dict holds a truthy value for that
key, and is kept otherwise.  The two failure modes of `extract_with_llm`
are also pinned: a transport error raises to (and is swallowed by) the
caller, an unparsable response body yields the empty dict (which overlays
nothing). -/
theorem enrichment_overlay (parsed : List (String × PyVal)) (llm : LlmOutcome)
    (fname raw : String) (k : String)
    (hk1 : k ≠ "filename") (hk2 : k ≠ "raw_text")
    (hnd : ∀ e, extract_with_llm llm = .ok e → (e.map Prod.fst).Nodup) :
    (∀ err, extract_with_llm llm = .error err →
      extractOne parsed true llm fname raw =
        dictInsert (dictInsert parsed "filename" (.str fname)) "raw_text" (.str raw)) ∧
    (∀ e, extract_with_llm llm = .ok e →
      lookupDict (extractOne parsed true llm fname raw) k =
        match lookupDict (e.filter (fun kv => truthy kv.2)) k with
        | some v => some v
        | none => lookupDict parsed k) ∧
    extract_with_llm .transportError = .error () ∧
    extract_with_llm (.response none) = .ok [] := by
  refine ⟨?_, ?_, rfl, rfl⟩
  · intro err herr
    unfold extractOne
    rw [if_pos rfl]
    unfold applyEnrichment
    rw [herr]
  · intro e hok
    unfold extractOne
    rw [if_pos rfl]
    unfold applyEnrichment
    have hnodup : ((e.filter (fun kv => truthy kv.2)).map Prod.fst).Nodup :=
      List.Nodup.sublist (List.Sublist.map Prod.fst (List.filter_sublist e))
        (hnd e hok)
    rw [hok, lookup_dictInsert, if_neg hk2, lookup_dictInsert, if_neg hk1,
      lookup_dictUpdate _ _ _ hnodup]
    rcases lookupDict (e.filter (fun kv => truthy kv.2)) k with _ | v <;> rfl

/-- Concrete heuristic dict for the enrichment witness. -/
def parsed0 : List (String × PyVal) :=
  [("invoice_number", .none), ("invoice_date", .str "2024-01-10"),
    ("total_amount", .num 3), ("currency", .str "EUR")]

/-- Concrete enrichment outcome for the witness: a truthy `total_amount`
(normalized from the string "2,5") and a falsy `currency`. -/
def llm0 : LlmOutcome :=
  .response (some [("total_amount", .str "2,5"), ("currency", .str "")])

theorem enrichment_overlay_witness :
    (∀ err, extract_with_llm llm0 = .error err →
      extractOne parsed0 true llm0 "f.pdf" "raw" =
        dictInsert (dictInsert parsed0 "filename" (.str "f.pdf")) "raw_text" (.str "raw")) ∧
    (∀ e, extract_with_llm llm0 = .ok e →
      lookupDict (extractOne parsed0 true llm0 "f.pdf" "raw") "total_amount" =
        match lookupDict (e.filter (fun kv => truthy kv.2)) "total_amount" with
        | some v => some v
        | none => lookupDict parsed0 "total_amount") ∧
    extract_with_llm .transportError = .error () ∧
    extract_with_llm (.response none) = .ok [] :=
  enrichment_overlay parsed0 llm0 "f.pdf" "raw" "total_amount"
    (by decide) (by decide)
    (by
      intro e he
      have h : ([("total_amount", PyVal.num (mkRat 25 10)),
          ("currency", PyVal.str "")] : List (String × PyVal)) = e := by
        injection he
      rw [← h]
      decide)
